import Mathlib

/-!
Verification of the lumina-minutes request/response core: the validation and
sanitization helpers (`src/lib/rate-limiter.ts`), the summarize endpoint with
its in-memory TTL cache (`src/app/api/summarize/route.ts`), the email dispatch
endpoint (`src/app/api/send-email/route.ts`), and the fixed-window rate
limiter policies.  TypeScript strings are modelled as Lean `String`,
timestamps (`Date.now()`) as `Nat` milliseconds, the `Map`-based cache as an
association list with unique keys, and the external services (the generative
completion call, the per-recipient SMTP send) as explicit function parameters.
-/

namespace Lumina

/-! ## Validation and sanitization (`src/lib/rate-limiter.ts`) -/

/-- Whitespace class of `String.prototype.trim` (and of the regex class
`\s`), modelled by `Char.isWhitespace`; the claims do not depend on the
exotic members of the JavaScript class. -/
def isJsWs (c : Char) : Bool := c.isWhitespace

/-- Drop leading and trailing whitespace from a character list. -/
def trimChars (cs : List Char) : List Char :=
  ((cs.dropWhile isJsWs).reverse.dropWhile isJsWs).reverse

/-- `String.prototype.trim`, as an executable model. -/
def jsTrim (s : String) : String := String.mk (trimChars s.toList)

/-- Character class `[^\s@]` of the email regex: not whitespace and not `@`. -/
def okChar (c : Char) : Bool := !isJsWs c && !(c == '@')

/-- Backtracking matcher for `p+` followed by a continuation `k`: consumes one
or more characters satisfying `p`, then the rest must satisfy `k`. -/
def matchPlus (p : Char → Bool) (k : List Char → Bool) : List Char → Bool
  | [] => false
  | c :: cs => p c && (k cs || matchPlus p k cs)

/-- Anchored test of the regex `^[^\s@]+@[^\s@]+\.[^\s@]+$` used by
`validateEmail`. -/
def emailRegexTest (s : String) : Bool :=
  matchPlus okChar (fun r1 =>
    match r1 with
    | '@' :: r2 =>
      matchPlus okChar (fun r3 =>
        match r3 with
        | '.' :: r4 => matchPlus okChar (fun r5 => r5.isEmpty) r4
        | _ => false) r2
    | _ => false) s.toList

/-- `validateEmail` from `src/lib/rate-limiter.ts`: the regex is tested on the
trimmed string, but the length bound is checked on the original string. -/
def validateEmail (email : String) : Bool :=
  emailRegexTest (jsTrim email) && decide (email.length ≤ 254)

/-- `validateTranscript` from `src/lib/rate-limiter.ts`. -/
def validateTranscript (transcript : String) : Bool :=
  decide ((jsTrim transcript).length > 10) && decide ((jsTrim transcript).length ≤ 50000)

/-- `validateInstruction` from `src/lib/rate-limiter.ts`. -/
def validateInstruction (instruction : String) : Bool :=
  decide ((jsTrim instruction).length ≤ 500)

/-- `sanitizeInput` from `src/lib/rate-limiter.ts`: trim, strip every `<` and
`>` character, truncate to 10000 characters. -/
def sanitizeInput (input : String) : String :=
  String.mk ((((jsTrim input).toList).filter (fun c => !(c == '<') && !(c == '>'))).take 10000)

/-- Declarative reading of the email regex, used to state what "matches
`^[^\s@]+@[^\s@]+\.[^\s@]+$`" means: the character list splits as a nonempty
`[^\s@]+` block, a literal `@`, a nonempty block, a literal `.`, and a final
nonempty block. -/
def EmailShape (cs : List Char) : Prop :=
  ∃ a b c : List Char,
    cs = a ++ ('@' :: (b ++ ('.' :: c))) ∧ a ≠ [] ∧ b ≠ [] ∧ c ≠ [] ∧
    (∀ x ∈ a, okChar x = true) ∧ (∀ x ∈ b, okChar x = true) ∧ (∀ x ∈ c, okChar x = true)

theorem matchPlus_iff (p : Char → Bool) (k : List Char → Bool) (l : List Char) :
    matchPlus p k l = true ↔
    ∃ a r, l = a ++ r ∧ a ≠ [] ∧ (∀ x ∈ a, p x = true) ∧ k r = true := by
  induction l with
  | nil =>
    simp only [matchPlus]
    constructor
    · intro h; cases h
    · rintro ⟨a, r, hl, ha, _, _⟩
      cases a with
      | nil => exact absurd rfl ha
      | cons x xs => simp at hl
  | cons c cs ih =>
    simp only [matchPlus, Bool.and_eq_true, Bool.or_eq_true]
    constructor
    · rintro ⟨hp, hk | hm⟩
      · exact ⟨[c], cs, rfl, by simp, by simpa using hp, hk⟩
      · obtain ⟨a, r, hl, ha, hall, hkr⟩ := ih.mp hm
        exact ⟨c :: a, r, by simp [hl], by simp,
          by intro x hx; rcases List.mem_cons.mp hx with h | h
             · subst h; exact hp
             · exact hall x h, hkr⟩
    · rintro ⟨a, r, hl, ha, hall, hkr⟩
      cases a with
      | nil => exact absurd rfl ha
      | cons x xs =>
        simp only [List.cons_append, List.cons.injEq] at hl
        obtain ⟨hx, hcs⟩ := hl
        subst hx
        refine ⟨hall c (List.mem_cons_self _ _), ?_⟩
        cases xs with
        | nil => left; simpa [hcs] using hkr
        | cons y ys =>
          right
          exact ih.mpr ⟨y :: ys, r, hcs, by simp,
            fun x hx => hall x (List.mem_cons_of_mem _ hx), hkr⟩

theorem emailRegexTest_iff (s : String) :
    emailRegexTest s = true ↔ EmailShape s.toList := by
  unfold emailRegexTest EmailShape
  rw [matchPlus_iff]
  constructor
  · rintro ⟨a, r1, hs, ha, halla, hk1⟩
    cases r1 with
    | nil => simp at hk1
    | cons c1 r2 =>
      by_cases hc1 : c1 = '@'
      · subst hc1
        have hk1' : matchPlus okChar (fun r3 =>
            match r3 with
            | '.' :: r4 => matchPlus okChar (fun r5 => r5.isEmpty) r4
            | _ => false) r2 = true := hk1
        rw [matchPlus_iff] at hk1'
        obtain ⟨b, r3, hr2, hb, hallb, hk2⟩ := hk1'
        cases r3 with
        | nil => simp at hk2
        | cons c2 r4 =>
          by_cases hc2 : c2 = '.'
          · subst hc2
            have hk2' : matchPlus okChar (fun r5 => r5.isEmpty) r4 = true := hk2
            rw [matchPlus_iff] at hk2'
            obtain ⟨c, r5, hr4, hc, hallc, hk3⟩ := hk2'
            have hr5 : r5 = [] := by
              cases r5 with
              | nil => rfl
              | cons z zs => simp [List.isEmpty] at hk3
            subst hr5
            refine ⟨a, b, c, ?_, ha, hb, hc, halla, hallb, hallc⟩
            subst hr2
            subst hr4
            simpa using hs
          · exfalso
            cases c2 <;> simp_all
      · exfalso
        cases c1 <;> simp_all
  · rintro ⟨a, b, c, hs, ha, hb, hc, halla, hallb, hallc⟩
    refine ⟨a, '@' :: (b ++ ('.' :: c)), hs, ha, halla, ?_⟩
    have hinner : matchPlus okChar (fun r5 => r5.isEmpty) c = true := by
      rw [matchPlus_iff]
      exact ⟨c, [], by simp, hc, hallc, by simp [List.isEmpty]⟩
    have hmid : matchPlus okChar (fun r3 =>
        match r3 with
        | '.' :: r4 => matchPlus okChar (fun r5 => r5.isEmpty) r4
        | _ => false) (b ++ ('.' :: c)) = true := by
      rw [matchPlus_iff]
      exact ⟨b, '.' :: c, rfl, hb, hallb, hinner⟩
    exact hmid

/-! ## Email dispatch pipeline (`src/app/api/send-email/route.ts`) -/

/-- A JSON value appearing in the `recipients` array: the route assumes
strings, but the body may carry other primitives (modelled by `num`). -/
inductive JVal where
  | str (s : String)
  | num (n : Int)
deriving DecidableEq

/-- Evaluation of `email.trim()` on a recipients element: on a non-string it
throws a `TypeError` (modelled as `Except.error` with the thrown message). -/
def trimJVal : JVal → Except String String
  | .str s => .ok (jsTrim s)
  | .num _ => .error "email.trim is not a function"

/-- `recipients.map(email => email.trim())`: elements are trimmed in order and
the first non-string element aborts the whole request with its exception. -/
def mapTrimRecipients : List JVal → Except String (List String)
  | [] => .ok []
  | v :: vs =>
    match trimJVal v with
    | .error e => .error e
    | .ok s =>
      match mapTrimRecipients vs with
      | .error e => .error e
      | .ok rest => .ok (s :: rest)

/-- Substring test (`String.prototype.includes`) used by the boundary catch
handler to classify thrown error messages. -/
def strContainsSub (s sub : String) : Bool :=
  (List.range (s.toList.length + 1)).any (fun i => sub.toList.isPrefixOf (s.toList.drop i))

/-- Boundary catch handler of the send-email route (lines 220-243): maps a
thrown error message to an HTTP status. -/
def boundaryCatch (msg : String) : Nat :=
  if strContainsSub msg "authentication" then 401
  else if strContainsSub msg "quota" || strContainsSub msg "rate limit" then 429
  else 500

/-- Observable outcome of the send-email route: HTTP status, the `successful`
and `failed` lists of the JSON body, and the list of addresses for which
`transporter.sendMail` was actually invoked (empty when SMTP is never
reached). -/
structure EmailResult where
  status : Nat
  successful : List String
  failed : List (String × String)
  attempted : List String
deriving DecidableEq

/-- The recipient filtering of lines 84-87: trim every element, keep those
passing `validateEmail`, then sanitize the survivors. -/
def validFiltered (trimmed : List String) : List String :=
  (trimmed.filter validateEmail).map sanitizeInput

/-- Aggregation of the per-recipient send outcomes (lines 173-218).  `send`
returns `none` on success and `some message` when the SMTP send throws; the
route records `{email, success, error}` per recipient, splits the results into
`successful` and `failed`, and answers 500 when nothing was sent and 200
otherwise. -/
def sendPhase (validRecipients : List String) (send : String → Option String) :
    EmailResult :=
  let results := validRecipients.map (fun e => (e, send e))
  let successful := results.filter (fun r => (r.2).isNone)
  let failed := results.filter (fun r => !(r.2).isNone)
  if successful.length = 0 then
    { status := 500, successful := [],
      failed := failed.map (fun r => (r.1, (r.2).getD "Unknown error")),
      attempted := validRecipients }
  else
    { status := 200, successful := successful.map (fun r => r.1),
      failed := failed.map (fun r => (r.1, (r.2).getD "Unknown error")),
      attempted := validRecipients }

/-- The POST handler of `src/app/api/send-email/route.ts` after a successful
rate-limit consume.  `summary` is the request's summary string (`!summary` for
a string is its emptiness, and non-string summaries are not claim-relevant),
`credsOk` is the presence of `GMAIL_USER`/`GMAIL_APP_PASSWORD`, and `send`
models the SMTP transport for this request. -/
def emailPOST (recipients : List JVal) (summary : String) (credsOk : Bool)
    (send : String → Option String) : EmailResult :=
  if recipients.length = 0 then
    { status := 400, successful := [], failed := [], attempted := [] }
  else if summary = "" then
    { status := 400, successful := [], failed := [], attempted := [] }
  else if recipients.length > 10 then
    { status := 400, successful := [], failed := [], attempted := [] }
  else if credsOk = false then
    { status := 500, successful := [], failed := [], attempted := [] }
  else
    match mapTrimRecipients recipients with
    | .error msg =>
      { status := boundaryCatch msg, successful := [], failed := [], attempted := [] }
    | .ok trimmed =>
      let validRecipients := validFiltered trimmed
      if validRecipients.length = 0 then
        { status := 400, successful := [], failed := [], attempted := [] }
      else
        sendPhase validRecipients send

/-- Trimming a list of string recipients never throws and trims pointwise. -/
theorem mapTrimRecipients_str (rs : List String) :
    mapTrimRecipients (rs.map JVal.str) = .ok (rs.map jsTrim) := by
  induction rs with
  | nil => rfl
  | cons r rs ih => simp [mapTrimRecipients, trimJVal, ih]

/-- Position-indexed view of a list, pairing each element with its index
(starting at `n`): the send phase issues one independent `sendMail` per list
entry, so outcomes are attached to attempt positions, not address values. -/
def withIdx (n : Nat) : List String → List (Nat × String)
  | [] => []
  | a :: l => (n, a) :: withIdx (n + 1) l

/-- The per-recipient outcome records of lines 173-192, with the SMTP
transport modelled per attempt: `send i e` is the outcome of the message for
the `i`-th valid recipient `e` (`none` success, `some message` throw), so two
occurrences of the same address may fare differently, as the independent
`sendMail` calls of the route allow. -/
def resultsIdx (validRecipients : List String) (send : Nat → String → Option String) :
    List (String × Option String) :=
  (withIdx 0 validRecipients).map (fun ie => (ie.2, send ie.1 ie.2))

/-- Aggregation of the per-recipient send outcomes (lines 173-218) over the
per-attempt transport model. -/
def sendPhaseIdx (validRecipients : List String) (send : Nat → String → Option String) :
    EmailResult :=
  let results := resultsIdx validRecipients send
  let successful := results.filter (fun r => (r.2).isNone)
  let failed := results.filter (fun r => !(r.2).isNone)
  if successful.length = 0 then
    { status := 500, successful := [],
      failed := failed.map (fun r => (r.1, (r.2).getD "Unknown error")),
      attempted := validRecipients }
  else
    { status := 200, successful := successful.map (fun r => r.1),
      failed := failed.map (fun r => (r.1, (r.2).getD "Unknown error")),
      attempted := validRecipients }

/-- The POST handler of `src/app/api/send-email/route.ts` after a successful
rate-limit consume, over the per-attempt transport model; `sendPhase` and
`emailPOST` above are its restriction to address-determined outcomes
(`fun _ e => send e`), adequate for statements that do not distinguish
duplicate entries with different fates. -/
def emailPOSTIdx (recipients : List JVal) (summary : String) (credsOk : Bool)
    (send : Nat → String → Option String) : EmailResult :=
  if recipients.length = 0 then
    { status := 400, successful := [], failed := [], attempted := [] }
  else if summary = "" then
    { status := 400, successful := [], failed := [], attempted := [] }
  else if recipients.length > 10 then
    { status := 400, successful := [], failed := [], attempted := [] }
  else if credsOk = false then
    { status := 500, successful := [], failed := [], attempted := [] }
  else
    match mapTrimRecipients recipients with
    | .error msg =>
      { status := boundaryCatch msg, successful := [], failed := [], attempted := [] }
    | .ok trimmed =>
      let validRecipients := validFiltered trimmed
      if validRecipients.length = 0 then
        { status := 400, successful := [], failed := [], attempted := [] }
      else
        sendPhaseIdx validRecipients send

theorem filterNone_proj (l : List String) (send : String → Option String) :
    ((l.map (fun e => (e, send e))).filter (fun r => (r.2).isNone)).map Prod.fst =
      l.filter (fun e => (send e).isNone) := by
  induction l with
  | nil => rfl
  | cons a l ih => cases hsa : send a <;> simp [List.filter_cons, hsa, ih]

theorem filterSome_pairs (l : List String) (send : String → Option String) :
    ((l.map (fun e => (e, send e))).filter (fun r => !(r.2).isNone)).map
        (fun r => (r.1, (r.2).getD "Unknown error")) =
      (l.filter (fun e => (send e).isSome)).map
        (fun e => (e, (send e).getD "Unknown error")) := by
  have hfun : ∀ r : String × Option String, (!(r.2).isNone) = (r.2).isSome := by
    intro r; cases hr : r.2 <;> rfl
  simp only [hfun]
  induction l with
  | nil => rfl
  | cons a l ih => cases hsa : send a <;> simp [List.filter_cons, hsa, ih]

theorem filter_length_partition {α : Type} (l : List α) (p : α → Bool) :
    (l.filter p).length + (l.filter (fun x => !(p x))).length = l.length := by
  induction l with
  | nil => rfl
  | cons a l ih => cases h : p a <;> simp [List.filter_cons, h] <;> omega

theorem filter_count_partition (l : List String) (p : String → Bool) (e : String) :
    (l.filter p).count e + (l.filter (fun x => !(p x))).count e = l.count e := by
  induction l with
  | nil => rfl
  | cons a l ih =>
    cases h : p a <;> simp [List.filter_cons, h, List.count_cons] <;>
      rcases eq_or_ne a e with he | he <;> simp [he] <;> omega

theorem sendPhase_attempted (valid : List String) (send : String → Option String) :
    (sendPhase valid send).attempted = valid := by
  simp only [sendPhase]
  split <;> rfl

theorem sendPhase_successful (valid : List String) (send : String → Option String) :
    (sendPhase valid send).successful = valid.filter (fun e => (send e).isNone) := by
  simp only [sendPhase]
  split
  · next h =>
    have h0 : ((valid.map (fun e => (e, send e))).filter (fun r => (r.2).isNone)) = [] :=
      List.length_eq_zero.mp h
    have := filterNone_proj valid send
    rw [h0] at this
    simpa using this.symm
  · next h => exact filterNone_proj valid send

theorem sendPhase_failed (valid : List String) (send : String → Option String) :
    (sendPhase valid send).failed =
      (valid.filter (fun e => (send e).isSome)).map
        (fun e => (e, (send e).getD "Unknown error")) := by
  simp only [sendPhase]
  split <;> exact filterSome_pairs valid send

theorem sendPhase_status (valid : List String) (send : String → Option String) :
    (sendPhase valid send).status =
      if (valid.filter (fun e => (send e).isNone)).length = 0 then 500 else 200 := by
  have hlen : ((valid.map (fun e => (e, send e))).filter (fun r => (r.2).isNone)).length =
      (valid.filter (fun e => (send e).isNone)).length := by
    rw [← filterNone_proj valid send, List.length_map]
  simp only [sendPhase]
  split
  · next h => rw [if_pos (hlen.symm.trans h)]
  · next h => rw [if_neg (fun hc => h (hlen.trans hc))]

/-- Under the hypotheses that the request passes body validation, the
credentials are configured and at least one recipient survives filtering, the
route reaches the per-recipient send phase. -/
theorem emailPOST_reaches_send (rs : List String) (summary : String)
    (send : String → Option String) (h0 : rs ≠ []) (h10 : rs.length ≤ 10)
    (hs : summary ≠ "") (hv : validFiltered (rs.map jsTrim) ≠ []) :
    emailPOST (rs.map JVal.str) summary true send =
      sendPhase (validFiltered (rs.map jsTrim)) send := by
  have h0' : ¬ rs.length = 0 := by simpa [List.length_eq_zero] using h0
  have h10' : ¬ rs.length > 10 := not_lt.mpr h10
  have hv' : ¬ (validFiltered (rs.map jsTrim)).length = 0 := by
    simpa [List.length_eq_zero] using hv
  simp only [emailPOST, List.length_map, if_neg h0', if_neg hs, if_neg h10',
    Bool.true_eq_false, if_neg (by simp : ¬ (True = False)), mapTrimRecipients_str]
  simp [hv']

theorem withIdx_map_snd (l : List String) : ∀ n, ((withIdx n l).map Prod.snd) = l := by
  induction l with
  | nil => intro n; rfl
  | cons a l ih => intro n; simp [withIdx, ih]

theorem resultsIdx_map_fst (valid : List String) (send : Nat → String → Option String) :
    (resultsIdx valid send).map Prod.fst = valid := by
  have h : ∀ n, (((withIdx n valid).map (fun ie => (ie.2, send ie.1 ie.2))).map Prod.fst) =
      (withIdx n valid).map Prod.snd := by
    intro n
    induction (withIdx n valid) with
    | nil => rfl
    | cons a l ih => simp [ih]
  rw [resultsIdx, h 0, withIdx_map_snd]

theorem withIdx_length (l : List String) : ∀ n, (withIdx n l).length = l.length := by
  induction l with
  | nil => intro n; rfl
  | cons a l ih => intro n; simp [withIdx, ih]

theorem resultsIdx_length (valid : List String) (send : Nat → String → Option String) :
    (resultsIdx valid send).length = valid.length := by
  rw [resultsIdx, List.length_map, withIdx_length]

theorem map_pairfst (M : List (String × Option String)) :
    ((M.map (fun r => (r.1, (r.2).getD "Unknown error"))).map Prod.fst) = M.map Prod.fst := by
  induction M with
  | nil => rfl
  | cons a M ih => simp [ih]

theorem sendPhaseIdx_attempted (valid : List String) (send : Nat → String → Option String) :
    (sendPhaseIdx valid send).attempted = valid := by
  simp only [sendPhaseIdx]
  split <;> rfl

theorem sendPhaseIdx_successful (valid : List String) (send : Nat → String → Option String) :
    (sendPhaseIdx valid send).successful =
      ((resultsIdx valid send).filter (fun r => (r.2).isNone)).map Prod.fst := by
  simp only [sendPhaseIdx]
  split
  · next h =>
    rw [List.length_eq_zero.mp h]
    rfl
  · next h => rfl

theorem sendPhaseIdx_failed (valid : List String) (send : Nat → String → Option String) :
    (sendPhaseIdx valid send).failed =
      ((resultsIdx valid send).filter (fun r => !(r.2).isNone)).map
        (fun r => (r.1, (r.2).getD "Unknown error")) := by
  simp only [sendPhaseIdx]
  split <;> rfl

theorem sendPhaseIdx_status (valid : List String) (send : Nat → String → Option String) :
    (sendPhaseIdx valid send).status =
      if ((resultsIdx valid send).filter (fun r => (r.2).isNone)).length = 0
      then 500 else 200 := by
  simp only [sendPhaseIdx]
  split <;> rfl

theorem emailPOSTIdx_reaches_send (rs : List String) (summary : String)
    (send : Nat → String → Option String) (h0 : rs ≠ []) (h10 : rs.length ≤ 10)
    (hs : summary ≠ "") (hv : validFiltered (rs.map jsTrim) ≠ []) :
    emailPOSTIdx (rs.map JVal.str) summary true send =
      sendPhaseIdx (validFiltered (rs.map jsTrim)) send := by
  have h0' : ¬ rs.length = 0 := by simpa [List.length_eq_zero] using h0
  have h10' : ¬ rs.length > 10 := not_lt.mpr h10
  have hv' : ¬ (validFiltered (rs.map jsTrim)).length = 0 := by
    simpa [List.length_eq_zero] using hv
  simp only [emailPOSTIdx, List.length_map, if_neg h0', if_neg hs, if_neg h10',
    Bool.true_eq_false, if_neg (by simp : ¬ (True = False)), mapTrimRecipients_str]
  simp [hv']

theorem count_fst_filter_partition (M : List (String × Option String))
    (p : String × Option String → Bool) (e : String) :
    ((M.filter p).map Prod.fst).count e + ((M.filter (fun r => !(p r))).map Prod.fst).count e =
      (M.map Prod.fst).count e := by
  induction M with
  | nil => rfl
  | cons a M ih =>
    cases h : p a <;> simp [List.filter_cons, h, List.count_cons] <;>
      rcases eq_or_ne a.1 e with he | he <;> simp [he] <;> omega

theorem mem_fst_filter_or (M : List (String × Option String))
    (p : String × Option String → Bool) (e : String) (he : e ∈ M.map Prod.fst) :
    e ∈ (M.filter p).map Prod.fst ∨ e ∈ (M.filter (fun r => !(p r))).map Prod.fst := by
  obtain ⟨r, hr, rfl⟩ := List.mem_map.mp he
  cases h : p r with
  | false =>
    right
    exact List.mem_map.mpr ⟨r, List.mem_filter.mpr ⟨hr, by simp [h]⟩, rfl⟩
  | true =>
    left
    exact List.mem_map.mpr ⟨r, List.mem_filter.mpr ⟨hr, h⟩, rfl⟩

theorem one_le_count_of_mem (l : List String) (e : String) (he : e ∈ l) :
    1 ≤ l.count e := by
  induction l with
  | nil => cases he
  | cons a l ih =>
    rcases List.mem_cons.mp he with rfl | hm
    · simp [List.count_cons]
    · have := ih hm
      simp [List.count_cons]
      omega

/-- The address-keyed send phase is the restriction of the per-attempt one to
outcomes that depend on the address only. -/
theorem sendPhase_eq_sendPhaseIdx (valid : List String) (send : String → Option String) :
    sendPhase valid send = sendPhaseIdx valid (fun _ e => send e) := by
  have hres : resultsIdx valid (fun _ e => send e) = valid.map (fun e => (e, send e)) := by
    have h : ∀ n, ((withIdx n valid).map (fun ie => (ie.2, send ie.2))) =
        valid.map (fun e => (e, send e)) := by
      induction valid with
      | nil => intro n; rfl
      | cons a l ih => intro n; simp [withIdx, ih]
    exact h 0
  simp only [sendPhase, sendPhaseIdx, hres]

/-! ## Request cache and summarize pipeline (`src/app/api/summarize/route.ts`) -/

/-- `CACHE_DURATION = 5 * 60 * 1000` milliseconds. -/
def CACHE_DURATION : Nat := 5 * 60 * 1000

/-- A value of the `requestCache` map: `{ summary, timestamp }`. -/
structure CacheEntry where
  summary : String
  timestamp : Nat
deriving DecidableEq

/-- The `requestCache` JavaScript `Map`, modelled as an association list with
unique keys in insertion order. -/
abbrev Cache := List (String × CacheEntry)

/-- `Map.get`. -/
def cacheGet : Cache → String → Option CacheEntry
  | [], _ => none
  | (k', v) :: rest, k => if k' = k then some v else cacheGet rest k

/-- `Map.set`: the old binding for the key (if any) is dropped and the new one
recorded.  (A JavaScript `Map` keeps the key at its original position; only
the order of iteration differs, and the single iteration over this map — the
sweep below — is order-independent.) -/
def cacheSet (c : Cache) (k : String) (v : CacheEntry) : Cache :=
  (c.filter (fun kv => kv.1 ≠ k)) ++ [(k, v)]

/-- The sweep loop of lines 117-122: delete every entry whose age exceeds
`CACHE_DURATION`. -/
def sweepCache (now : Nat) (c : Cache) : Cache :=
  c.filter (fun kv => ¬ (now - kv.2.timestamp > CACHE_DURATION))

/-- Lines 113-123: store the fresh summary, then sweep if the store left the
map with more than 100 entries. -/
def cacheStoreAndSweep (c : Cache) (k : String) (s : String) (now : Nat) : Cache :=
  let c' := cacheSet c k { summary := s, timestamp := now }
  if c'.length > 100 then sweepCache now c' else c'

/-- Truthiness test of `instruction && !validateInstruction(instruction)`
(line 50): only a present, non-empty, invalid instruction rejects. -/
def instrRejected : Option String → Bool
  | none => false
  | some i => !(i == "") && !(validateInstruction i)

/-- `instruction ? sanitizeInput(instruction) : ""` (line 66). -/
def sanitizedInstr : Option String → String
  | none => ""
  | some i => if i == "" then "" else sanitizeInput i

/-- The prompt template of lines 83-97 (text abbreviated to its fixed
skeleton; the claims depend only on the prompt being a fixed function of the
sanitized transcript and instruction, with the canned default instruction
substituted when the sanitized instruction is empty). -/
def promptFor (st si : String) : String :=
  "You are an AI meeting summarizer. Transcript:\n" ++ st ++
    "\nUser Instruction: " ++
    (if si = "" then
      "Please provide a clear, structured summary of this meeting transcript."
    else si) ++
    "\nPlease generate a comprehensive summary."

/-- Observable outcome of the summarize route: HTTP status, the returned
summary, the `cached` flag of the JSON body, whether the upstream
`generateContent` call was issued, and the cache left behind. -/
structure SummarizeResult where
  status : Nat
  summary : Option String
  cached : Bool
  upstreamCalled : Bool
  cache : Cache

/-- The cache-miss tail of the route (lines 79-128): build the prompt, call
the upstream model (`up` maps the prompt to the response text; an empty
response models the `!summary` throw of line 108), store and sweep, respond. -/
def summarizeMiss (cache : Cache) (now : Nat) (up : String → String)
    (st si : String) : SummarizeResult :=
  let key := st ++ ":" ++ si
  let s := up (promptFor st si)
  if s = "" then
    { status := 500, summary := none, cached := false, upstreamCalled := true, cache := cache }
  else
    { status := 200, summary := some s, cached := false, upstreamCalled := true,
      cache := cacheStoreAndSweep cache key s now }

/-- The POST handler of `src/app/api/summarize/route.ts` after a successful
rate-limit consume.  `apiKey` is the presence of `GEMINI_API_KEY`;
`instruction = none` models an absent field and `some ""` an empty (falsy)
one. -/
def summarizePOST (cache : Cache) (now : Nat) (up : String → String)
    (apiKey : Bool) (transcript : String) (instruction : Option String) :
    SummarizeResult :=
  if transcript = "" then
    { status := 400, summary := none, cached := false, upstreamCalled := false, cache := cache }
  else if validateTranscript transcript = false then
    { status := 400, summary := none, cached := false, upstreamCalled := false, cache := cache }
  else if instrRejected instruction = true then
    { status := 400, summary := none, cached := false, upstreamCalled := false, cache := cache }
  else if apiKey = false then
    { status := 500, summary := none, cached := false, upstreamCalled := false, cache := cache }
  else
    let st := sanitizeInput transcript
    let si := sanitizedInstr instruction
    let key := st ++ ":" ++ si
    match cacheGet cache key with
    | some e =>
      if now - e.timestamp < CACHE_DURATION then
        { status := 200, summary := some e.summary, cached := true,
          upstreamCalled := false, cache := cache }
      else summarizeMiss cache now up st si
    | none => summarizeMiss cache now up st si

theorem cacheGet_append_last (l : Cache) (k : String) (v : CacheEntry)
    (h : ∀ kv ∈ l, kv.1 ≠ k) : cacheGet (l ++ [(k, v)]) k = some v := by
  induction l with
  | nil => simp [cacheGet]
  | cons kv rest ih =>
    have hk : kv.1 ≠ k := h kv (List.mem_cons_self _ _)
    simp only [List.cons_append, cacheGet, if_neg hk]
    exact ih (fun kv' h' => h kv' (List.mem_cons_of_mem _ h'))

theorem cacheGet_storeAndSweep (c : Cache) (k : String) (s : String) (now : Nat) :
    cacheGet (cacheStoreAndSweep c k s now) k = some { summary := s, timestamp := now } := by
  simp only [cacheStoreAndSweep, cacheSet]
  split
  · next h =>
    simp only [sweepCache, List.filter_append]
    have hkeep : List.filter (fun kv => ¬ (now - kv.2.timestamp > CACHE_DURATION))
        [(k, ({ summary := s, timestamp := now } : CacheEntry))] =
        [(k, { summary := s, timestamp := now })] := by
      simp [List.filter, CACHE_DURATION]
    rw [hkeep]
    refine cacheGet_append_last _ _ _ ?_
    intro kv hkv
    have := List.of_mem_filter (List.mem_filter.mp hkv).1
    simpa using this
  · next h =>
    refine cacheGet_append_last _ _ _ ?_
    intro kv hkv
    simpa using List.of_mem_filter hkv

/-! ## Rate limiter (`src/lib/rate-limiter.ts` configuration; consume
semantics modelled from the spec) -/

/-- A rate-limit policy as configured in `rateLimiters`; all durations are in
milliseconds (the source configures `duration` and `blockDuration` in
seconds, `msBeforeNext` is reported in milliseconds). -/
structure RLPolicy where
  points : Nat
  durationMs : Nat
  blockMs : Nat
deriving DecidableEq

/-- Per-client fixed-window state: `{ count, windowStart, blockedUntil }`. -/
structure RLClient where
  count : Nat
  windowStart : Nat
  blockedUntil : Option Nat
deriving DecidableEq

/-- Result of one consume: whether the request is allowed, the remaining
points, and the reset delay in milliseconds. -/
structure RLReply where
  allowed : Bool
  remaining : Nat
  resetMillis : Nat
deriving DecidableEq

/-- The three policies configured in `src/lib/rate-limiter.ts`. -/
structure RateLimiters where
  summarize : RLPolicy
  email : RLPolicy
  general : RLPolicy
deriving DecidableEq

/-- `rateLimiters`: summarize 10/60s block 120s, email 5/60s block 300s,
general 100/60s block 60s. -/
def rateLimiters : RateLimiters :=
  { summarize := { points := 10, durationMs := 60 * 1000, blockMs := 2 * 60 * 1000 }
    email := { points := 5, durationMs := 60 * 1000, blockMs := 5 * 60 * 1000 }
    general := { points := 100, durationMs := 60 * 1000, blockMs := 60 * 1000 } }

/-- Modelled from the spec: the `consume` operation of the fixed-window-with-
block rate limiter.  The implementation (`RateLimiterMemory.consume` of the
rate-limiter-flexible dependency) is not part of this repository's sources;
this follows the algorithm of spec section 4.2: a blocked client is denied
with the time remaining until unblock; within an unexpired window the counter
is incremented, and an increment that would exceed the budget enters the
block state and is denied; an expired (or fresh, or unblocked) window resets
the counter to 1 and admits the request. -/
def rlConsume (p : RLPolicy) (s : Option RLClient) (now : Nat) :
    RLReply × RLClient :=
  match s with
  | none =>
    ({ allowed := true, remaining := p.points - 1, resetMillis := p.durationMs },
     { count := 1, windowStart := now, blockedUntil := none })
  | some st =>
    match st.blockedUntil with
    | some b =>
      if now < b then
        ({ allowed := false, remaining := 0, resetMillis := b - now }, st)
      else
        ({ allowed := true, remaining := p.points - 1, resetMillis := p.durationMs },
         { count := 1, windowStart := now, blockedUntil := none })
    | none =>
      if now < st.windowStart + p.durationMs then
        if st.count + 1 > p.points then
          ({ allowed := false, remaining := 0, resetMillis := p.blockMs },
           { count := st.count, windowStart := st.windowStart,
             blockedUntil := some (now + p.blockMs) })
        else
          ({ allowed := true, remaining := p.points - (st.count + 1),
             resetMillis := st.windowStart + p.durationMs - now },
           { count := st.count + 1, windowStart := st.windowStart, blockedUntil := none })
      else
        ({ allowed := true, remaining := p.points - 1, resetMillis := p.durationMs },
         { count := 1, windowStart := now, blockedUntil := none })

/-- Allowed flags of a sequence of consume calls at the given times. -/
def rlReplies (p : RLPolicy) : Option RLClient → List Nat → List RLReply
  | _, [] => []
  | s, t :: ts => (rlConsume p s t).1 :: rlReplies p (some (rlConsume p s t).2) ts

/-- Client state after a sequence of consume calls at the given times. -/
def rlFinal (p : RLPolicy) : Option RLClient → List Nat → Option RLClient
  | s, [] => s
  | s, t :: ts => rlFinal p (some (rlConsume p s t).2) ts

theorem rlConsume_count_le (p : RLPolicy) (hpts : 1 ≤ p.points)
    (s : Option RLClient) (now : Nat)
    (h : ∀ st, s = some st → st.count ≤ p.points) :
    (rlConsume p s now).2.count ≤ p.points := by
  match s with
  | none => simpa [rlConsume] using hpts
  | some ⟨cnt, ws, bu⟩ =>
    have hst : cnt ≤ p.points := h _ rfl
    cases bu with
    | some b =>
      simp only [rlConsume]
      split
      · exact hst
      · exact hpts
    | none =>
      simp only [rlConsume]
      split
      · split
        · exact hst
        · next hcnt => exact (by omega : cnt + 1 ≤ p.points)
      · exact hpts

theorem rlFinal_count_le (p : RLPolicy) (hpts : 1 ≤ p.points) (ts : List Nat) :
    ∀ (s : Option RLClient), (∀ st, s = some st → st.count ≤ p.points) →
      ∀ st, rlFinal p s ts = some st → st.count ≤ p.points := by
  induction ts with
  | nil =>
    intro s hs st hfin
    exact hs st hfin
  | cons t ts ih =>
    intro s hs st hfin
    simp only [rlFinal] at hfin
    exact ih (some (rlConsume p s t).2)
      (fun st' h' => by
        cases h'
        exact rlConsume_count_le p hpts s t hs) st hfin

theorem rlConsume_window_step (p : RLPolicy) (k t0 now : Nat)
    (hk : k + 1 ≤ p.points) (hnow : now < t0 + p.durationMs) :
    rlConsume p (some { count := k, windowStart := t0, blockedUntil := none }) now =
      ({ allowed := true, remaining := p.points - (k + 1),
         resetMillis := t0 + p.durationMs - now },
       { count := k + 1, windowStart := t0, blockedUntil := none }) := by
  simp only [rlConsume, if_pos hnow, if_neg (by omega : ¬ k + 1 > p.points)]

theorem rlRun_window (p : RLPolicy) (t0 : Nat) (ts : List Nat) :
    ∀ k, k + ts.length ≤ p.points → (∀ t ∈ ts, t < t0 + p.durationMs) →
      (rlReplies p (some { count := k, windowStart := t0, blockedUntil := none })
        ts).all (fun r => r.allowed) = true ∧
      rlFinal p (some { count := k, windowStart := t0, blockedUntil := none }) ts =
        some { count := k + ts.length, windowStart := t0, blockedUntil := none } := by
  induction ts with
  | nil => intro k _ _; simp [rlReplies, rlFinal]
  | cons t ts ih =>
    intro k hk hts
    have hk' : k + ts.length + 1 ≤ p.points := by
      simp only [List.length_cons] at hk
      omega
    have ht : t < t0 + p.durationMs := hts t (List.mem_cons_self _ _)
    have hstep := rlConsume_window_step p k t0 t (by omega) ht
    have hrest := ih (k + 1) (by omega)
      (fun t' h' => hts t' (List.mem_cons_of_mem _ h'))
    constructor
    · simp only [rlReplies, hstep, List.all_cons, Bool.and_eq_true]
      exact ⟨trivial, hrest.1⟩
    · simp only [rlFinal, hstep]
      rw [hrest.2]
      simp only [List.length_cons]
      congr 2
      omega

/-! ## Claim theorems: email dispatch -/

theorem filter_of_map {α β : Type} (f : α → β) (p : β → Bool) (l : List α) :
    (l.map f).filter p = (l.filter (fun x => p (f x))).map f := by
  induction l with
  | nil => rfl
  | cons a l ih => cases h : p (f a) <;> simp [List.filter_cons, h, ih]

theorem filter_ne_nil_iff {α : Type} (l : List α) (p : α → Bool) :
    l.filter p ≠ [] ↔ ∃ x ∈ l, p x = true := by
  constructor
  · intro h
    cases hf : l.filter p with
    | nil => exact absurd hf h
    | cons a t =>
      have ha : a ∈ l.filter p := by
        rw [hf]; exact List.mem_cons_self a t
      have := List.mem_filter.mp ha
      exact ⟨a, this.1, this.2⟩
  · rintro ⟨x, hx, hpx⟩ hnil
    have hmem : x ∈ l.filter p := List.mem_filter.mpr ⟨hx, hpx⟩
    rw [hnil] at hmem
    simp at hmem

theorem isSome_eq_not_isNone {α : Type} (o : Option α) : o.isSome = !o.isNone := by
  cases o <;> rfl

/-- C6: for every recipient list with more than 10 addresses the email route
answers HTTP 400 and never invokes an SMTP send. -/
theorem email_over_ten_recipients_rejected (recipients : List JVal)
    (summary : String) (credsOk : Bool) (send : String → Option String)
    (h : recipients.length > 10) :
    (emailPOST recipients summary credsOk send).status = 400 ∧
    (emailPOST recipients summary credsOk send).attempted = [] := by
  unfold emailPOST
  have h0 : ¬ recipients.length = 0 := by omega
  rw [if_neg h0]
  by_cases hs : summary = ""
  · rw [if_pos hs]; exact ⟨rfl, rfl⟩
  · rw [if_neg hs, if_pos h]; exact ⟨rfl, rfl⟩

/-- C6 witness: a concrete 11-recipient request is rejected with 400 and no
send is attempted. -/
theorem email_over_ten_recipients_rejected_witness :
    (List.replicate 11 (JVal.str "a@b.c")).length > 10 ∧
    ((emailPOST (List.replicate 11 (JVal.str "a@b.c")) "hello" true
        (fun _ => none)).status = 400 ∧
      (emailPOST (List.replicate 11 (JVal.str "a@b.c")) "hello" true
        (fun _ => none)).attempted = []) :=
  ⟨by decide, email_over_ten_recipients_rejected _ _ _ _ (by decide)⟩

/-- C10: a request whose recipients array holds a non-string element is
answered by the generic 500 of the boundary catch handler (the thrown
`TypeError` message matches none of the classified substrings), not by a 400
validation error. -/
theorem email_non_string_recipient_500 :
    (emailPOSTIdx [JVal.num 1, JVal.str "a@b.c"] "meeting summary" true
        (fun _ _ => none)).status = 500 ∧
    ¬ (emailPOSTIdx [JVal.num 1, JVal.str "a@b.c"] "meeting summary" true
        (fun _ _ => none)).status = 400 := by
  constructor
  · decide
  · decide

/-- C4: once the send phase is reached, the route answers 200 exactly when at
least one per-recipient send succeeded, the failed recipients are listed in
the response in either case, and when every send throws the route answers 500
with the full per-recipient failure listing. -/
theorem email_success_iff_any_sent (rs : List String) (summary : String)
    (send : String → Option String)
    (h0 : rs ≠ []) (h10 : rs.length ≤ 10) (hsum : summary ≠ "")
    (hv : validFiltered (rs.map jsTrim) ≠ []) :
    ((emailPOST (rs.map JVal.str) summary true send).status = 200 ↔
      ∃ e ∈ validFiltered (rs.map jsTrim), (send e).isNone = true) ∧
    (emailPOST (rs.map JVal.str) summary true send).failed =
      ((validFiltered (rs.map jsTrim)).filter (fun e => (send e).isSome)).map
        (fun e => (e, (send e).getD "Unknown error")) ∧
    ((∀ e ∈ validFiltered (rs.map jsTrim), (send e).isSome = true) →
      (emailPOST (rs.map JVal.str) summary true send).status = 500) := by
  rw [emailPOST_reaches_send rs summary send h0 h10 hsum hv]
  refine ⟨?_, sendPhase_failed _ send, ?_⟩
  · rw [sendPhase_status]
    constructor
    · intro h200
      by_contra hnone
      push_neg at hnone
      have hfil : (validFiltered (rs.map jsTrim)).filter
          (fun e => (send e).isNone) = [] := by
        by_contra hne
        obtain ⟨x, hx, hpx⟩ := (filter_ne_nil_iff _ _).mp hne
        exact absurd hpx (by simpa using hnone x hx)
      rw [hfil] at h200
      simp at h200
    · rintro ⟨e, he, hne⟩
      have hfil : (validFiltered (rs.map jsTrim)).filter
          (fun e => (send e).isNone) ≠ [] :=
        (filter_ne_nil_iff _ _).mpr ⟨e, he, hne⟩
      rw [if_neg (by simpa [List.length_eq_zero] using hfil)]
  · intro hall
    rw [sendPhase_status]
    have hfil : (validFiltered (rs.map jsTrim)).filter
        (fun e => (send e).isNone) = [] := by
      by_contra hne
      obtain ⟨x, hx, hpx⟩ := (filter_ne_nil_iff _ _).mp hne
      have := hall x hx
      rw [isSome_eq_not_isNone, hpx] at this
      cases this
    rw [hfil]
    rfl

/-- C4 witness: one recipient whose send succeeds yields a 200 with an empty
failure listing. -/
theorem email_success_iff_any_sent_witness :
    (["a@b.c"] ≠ ([] : List String) ∧ (["a@b.c"] : List String).length ≤ 10 ∧
      "hello" ≠ "" ∧ validFiltered (["a@b.c"].map jsTrim) ≠ []) ∧
    (((emailPOST (["a@b.c"].map JVal.str) "hello" true (fun _ => none)).status = 200 ↔
      ∃ e ∈ validFiltered (["a@b.c"].map jsTrim), ((fun _ => none) e : Option String).isNone = true) ∧
    (emailPOST (["a@b.c"].map JVal.str) "hello" true (fun _ => none)).failed =
      ((validFiltered (["a@b.c"].map jsTrim)).filter
          (fun e => ((fun _ => none) e : Option String).isSome)).map
        (fun e => (e, ((fun _ => none) e : Option String).getD "Unknown error")) ∧
    ((∀ e ∈ validFiltered (["a@b.c"].map jsTrim),
        ((fun _ => none) e : Option String).isSome = true) →
      (emailPOST (["a@b.c"].map JVal.str) "hello" true (fun _ => none)).status = 500)) :=
  ⟨⟨by decide, by decide, by decide, by decide⟩,
    email_success_iff_any_sent ["a@b.c"] "hello" (fun _ => none)
      (by decide) (by decide) (by decide) (by decide)⟩

/-- C9 counterexample: the claim as stated fails on a dispatch with a
duplicated recipient whose two independent send attempts fare differently:
at recipients `a@b.c`, `a@b.c` where attempt 0 succeeds and attempt 1 throws,
the address appears in the successful list and in the failed list at once,
so it does not land in exactly one of the two lists. -/
theorem email_partition_claim_counterexample :
    ¬ ((emailPOSTIdx ((["a@b.c", "a@b.c"] : List String).map JVal.str) "hello" true
          (fun i _ => if i = 0 then none else some "boom")).successful.length +
        (emailPOSTIdx ((["a@b.c", "a@b.c"] : List String).map JVal.str) "hello" true
          (fun i _ => if i = 0 then none else some "boom")).failed.length =
        (validFiltered ((["a@b.c", "a@b.c"] : List String).map jsTrim)).length ∧
      (∀ e, (emailPOSTIdx ((["a@b.c", "a@b.c"] : List String).map JVal.str) "hello" true
          (fun i _ => if i = 0 then none else some "boom")).successful.count e +
        ((emailPOSTIdx ((["a@b.c", "a@b.c"] : List String).map JVal.str) "hello" true
          (fun i _ => if i = 0 then none else some "boom")).failed.map Prod.fst).count e =
        (validFiltered ((["a@b.c", "a@b.c"] : List String).map jsTrim)).count e) ∧
      (∀ e ∈ validFiltered ((["a@b.c", "a@b.c"] : List String).map jsTrim),
        (e ∈ (emailPOSTIdx ((["a@b.c", "a@b.c"] : List String).map JVal.str) "hello" true
            (fun i _ => if i = 0 then none else some "boom")).successful ∧
          e ∉ (emailPOSTIdx ((["a@b.c", "a@b.c"] : List String).map JVal.str) "hello" true
            (fun i _ => if i = 0 then none else some "boom")).failed.map Prod.fst) ∨
        (e ∉ (emailPOSTIdx ((["a@b.c", "a@b.c"] : List String).map JVal.str) "hello" true
            (fun i _ => if i = 0 then none else some "boom")).successful ∧
          e ∈ (emailPOSTIdx ((["a@b.c", "a@b.c"] : List String).map JVal.str) "hello" true
            (fun i _ => if i = 0 then none else some "boom")).failed.map Prod.fst))) := by
  intro h
  have hx := h.2.2 "a@b.c" (by decide)
  rcases hx with ⟨hs, hnf⟩ | ⟨hns, hf⟩
  · exact hnf (by decide)
  · exact hns (by decide)

/-- C9 (amended): once the send phase is reached, the successful and failed
lists partition the valid-recipient attempts: the lengths add up, for every
address the occurrence counts in the two lists sum to its occurrence count
among the valid recipients (no attempt is dropped or duplicated), every valid
address appears in at least one of the two lists, and an address appears in
both only when it occurs more than once among the valid recipients. -/
theorem email_attempts_partition_valid (rs : List String) (summary : String)
    (send : Nat → String → Option String)
    (h0 : rs ≠ []) (h10 : rs.length ≤ 10) (hsum : summary ≠ "")
    (hv : validFiltered (rs.map jsTrim) ≠ []) :
    (emailPOSTIdx (rs.map JVal.str) summary true send).successful.length +
        (emailPOSTIdx (rs.map JVal.str) summary true send).failed.length =
      (validFiltered (rs.map jsTrim)).length ∧
    (∀ e, (emailPOSTIdx (rs.map JVal.str) summary true send).successful.count e +
        ((emailPOSTIdx (rs.map JVal.str) summary true send).failed.map Prod.fst).count e =
      (validFiltered (rs.map jsTrim)).count e) ∧
    (∀ e ∈ validFiltered (rs.map jsTrim),
      e ∈ (emailPOSTIdx (rs.map JVal.str) summary true send).successful ∨
      e ∈ (emailPOSTIdx (rs.map JVal.str) summary true send).failed.map Prod.fst) ∧
    (∀ e, e ∈ (emailPOSTIdx (rs.map JVal.str) summary true send).successful →
      e ∈ (emailPOSTIdx (rs.map JVal.str) summary true send).failed.map Prod.fst →
      2 ≤ (validFiltered (rs.map jsTrim)).count e) := by
  rw [emailPOSTIdx_reaches_send rs summary send h0 h10 hsum hv]
  have hsucc := sendPhaseIdx_successful (validFiltered (rs.map jsTrim)) send
  have hfail := sendPhaseIdx_failed (validFiltered (rs.map jsTrim)) send
  have hRfst := resultsIdx_map_fst (validFiltered (rs.map jsTrim)) send
  have hfailfst : (sendPhaseIdx (validFiltered (rs.map jsTrim)) send).failed.map Prod.fst =
      ((resultsIdx (validFiltered (rs.map jsTrim)) send).filter
        (fun r => !(r.2).isNone)).map Prod.fst := by
    rw [hfail, map_pairfst]
  have hcnt : ∀ e,
      (sendPhaseIdx (validFiltered (rs.map jsTrim)) send).successful.count e +
        ((sendPhaseIdx (validFiltered (rs.map jsTrim)) send).failed.map Prod.fst).count e =
      (validFiltered (rs.map jsTrim)).count e := by
    intro e
    rw [hsucc, hfailfst]
    have := count_fst_filter_partition (resultsIdx (validFiltered (rs.map jsTrim)) send)
      (fun r => (r.2).isNone) e
    rw [hRfst] at this
    exact this
  refine ⟨?_, hcnt, ?_, ?_⟩
  · rw [hsucc, hfail, List.length_map, List.length_map]
    rw [← resultsIdx_length (validFiltered (rs.map jsTrim)) send]
    exact filter_length_partition _ _
  · intro e he
    rw [hsucc, hfailfst]
    refine mem_fst_filter_or _ _ e ?_
    rw [hRfst]
    exact he
  · intro e hs hf
    have h1 := one_le_count_of_mem _ e hs
    have h2 := one_le_count_of_mem _ e hf
    have := hcnt e
    omega

/-- C9 witness: the duplicated-recipient dispatch of the counterexample
satisfies the amended partition facts: lengths 1 + 1 = 2, both occurrences of
the address accounted for, and the address is in both lists because it occurs
twice. -/
theorem email_attempts_partition_valid_witness :
    ((["a@b.c", "a@b.c"] : List String) ≠ [] ∧
      (["a@b.c", "a@b.c"] : List String).length ≤ 10 ∧ "hello" ≠ "" ∧
      validFiltered ((["a@b.c", "a@b.c"] : List String).map jsTrim) ≠ []) ∧
    ((emailPOSTIdx ((["a@b.c", "a@b.c"] : List String).map JVal.str) "hello" true
        (fun i _ => if i = 0 then none else some "boom")).successful.length +
        (emailPOSTIdx ((["a@b.c", "a@b.c"] : List String).map JVal.str) "hello" true
          (fun i _ => if i = 0 then none else some "boom")).failed.length =
      (validFiltered ((["a@b.c", "a@b.c"] : List String).map jsTrim)).length ∧
    (∀ e, (emailPOSTIdx ((["a@b.c", "a@b.c"] : List String).map JVal.str) "hello" true
        (fun i _ => if i = 0 then none else some "boom")).successful.count e +
        ((emailPOSTIdx ((["a@b.c", "a@b.c"] : List String).map JVal.str) "hello" true
          (fun i _ => if i = 0 then none else some "boom")).failed.map Prod.fst).count e =
      (validFiltered ((["a@b.c", "a@b.c"] : List String).map jsTrim)).count e) ∧
    (∀ e ∈ validFiltered ((["a@b.c", "a@b.c"] : List String).map jsTrim),
      e ∈ (emailPOSTIdx ((["a@b.c", "a@b.c"] : List String).map JVal.str) "hello" true
          (fun i _ => if i = 0 then none else some "boom")).successful ∨
      e ∈ (emailPOSTIdx ((["a@b.c", "a@b.c"] : List String).map JVal.str) "hello" true
          (fun i _ => if i = 0 then none else some "boom")).failed.map Prod.fst) ∧
    (∀ e, e ∈ (emailPOSTIdx ((["a@b.c", "a@b.c"] : List String).map JVal.str) "hello" true
          (fun i _ => if i = 0 then none else some "boom")).successful →
      e ∈ (emailPOSTIdx ((["a@b.c", "a@b.c"] : List String).map JVal.str) "hello" true
          (fun i _ => if i = 0 then none else some "boom")).failed.map Prod.fst →
      2 ≤ (validFiltered ((["a@b.c", "a@b.c"] : List String).map jsTrim)).count e)) :=
  ⟨⟨by decide, by decide, by decide, by decide⟩,
    email_attempts_partition_valid ["a@b.c", "a@b.c"] "hello"
      (fun i _ => if i = 0 then none else some "boom")
      (by decide) (by decide) (by decide) (by decide)⟩

/-- C5: with 3 recipients of which exactly one fails address validation and,
among the two attempted, exactly one send throws, the result reports one
success, one failure carrying its error message, the invalid address is never
attempted (the attempted list is the two filtered recipients), and the status
is 200. -/
theorem email_partial_failure_scenario (rs : List String) (summary : String)
    (send : String → Option String)
    (h3 : rs.length = 3)
    (hinv : (rs.filter (fun r => !(validateEmail (jsTrim r)))).length = 1)
    (hsum : summary ≠ "")
    (hthrow : ((validFiltered (rs.map jsTrim)).filter
        (fun e => (send e).isSome)).length = 1) :
    (validFiltered (rs.map jsTrim)).length = 2 ∧
    (emailPOST (rs.map JVal.str) summary true send).successful.length = 1 ∧
    (emailPOST (rs.map JVal.str) summary true send).failed.length = 1 ∧
    (∀ pr ∈ (emailPOST (rs.map JVal.str) summary true send).failed,
      send pr.1 = some pr.2) ∧
    (emailPOST (rs.map JVal.str) summary true send).attempted =
      validFiltered (rs.map jsTrim) ∧
    (emailPOST (rs.map JVal.str) summary true send).status = 200 := by
  have hvallen : (validFiltered (rs.map jsTrim)).length = 2 := by
    have hpart := filter_length_partition rs (fun r => validateEmail (jsTrim r))
    have hmapfil : ((rs.map jsTrim).filter validateEmail) =
        (rs.filter (fun r => validateEmail (jsTrim r))).map jsTrim :=
      filter_of_map jsTrim validateEmail rs
    simp only [validFiltered, hmapfil, List.length_map]
    omega
  have h0 : rs ≠ [] := by
    intro h
    rw [h] at h3
    cases h3
  have h10 : rs.length ≤ 10 := by omega
  have hv : validFiltered (rs.map jsTrim) ≠ [] := by
    intro h
    rw [h] at hvallen
    cases hvallen
  have hflip : ∀ l : List String,
      l.filter (fun e => (send e).isSome) = l.filter (fun e => !((send e).isNone)) := by
    intro l
    congr 1
    funext e
    exact isSome_eq_not_isNone (send e)
  have hsucc : ((validFiltered (rs.map jsTrim)).filter
      (fun e => (send e).isNone)).length = 1 := by
    have := filter_length_partition (validFiltered (rs.map jsTrim))
      (fun e => (send e).isNone)
    rw [hflip] at hthrow
    omega
  rw [emailPOST_reaches_send rs summary send h0 h10 hsum hv]
  refine ⟨hvallen, ?_, ?_, ?_, sendPhase_attempted _ send, ?_⟩
  · rw [sendPhase_successful]
    exact hsucc
  · rw [sendPhase_failed, List.length_map]
    exact hthrow
  · intro pr hpr
    rw [sendPhase_failed] at hpr
    obtain ⟨e, he, rfl⟩ := List.mem_map.mp hpr
    have hsome := (List.mem_filter.mp he).2
    cases hse : send e with
    | none => rw [hse] at hsome; cases hsome
    | some v => simp [hse]
  · rw [sendPhase_status, if_neg (by omega : ¬ ((validFiltered
      (rs.map jsTrim)).filter (fun e => (send e).isNone)).length = 0)]

/-- C5 witness: recipients `a@b.c`, `bad`, `d@e.f` where the send to `d@e.f`
throws `boom`: one success, one validation exclusion, one listed failure,
status 200. -/
theorem email_partial_failure_scenario_witness :
    ((["a@b.c", "bad", "d@e.f"] : List String).length = 3 ∧
      ((["a@b.c", "bad", "d@e.f"] : List String).filter
        (fun r => !(validateEmail (jsTrim r)))).length = 1 ∧
      "hello" ≠ "" ∧
      ((validFiltered ((["a@b.c", "bad", "d@e.f"] : List String).map jsTrim)).filter
        (fun e => ((if e = "d@e.f" then some "boom" else none : Option String)).isSome)).length = 1) ∧
    ((validFiltered ((["a@b.c", "bad", "d@e.f"] : List String).map jsTrim)).length = 2 ∧
      (emailPOST ((["a@b.c", "bad", "d@e.f"] : List String).map JVal.str) "hello" true
        (fun e => if e = "d@e.f" then some "boom" else none)).successful.length = 1 ∧
      (emailPOST ((["a@b.c", "bad", "d@e.f"] : List String).map JVal.str) "hello" true
        (fun e => if e = "d@e.f" then some "boom" else none)).failed.length = 1 ∧
      (∀ pr ∈ (emailPOST ((["a@b.c", "bad", "d@e.f"] : List String).map JVal.str) "hello" true
          (fun e => if e = "d@e.f" then some "boom" else none)).failed,
        (if pr.1 = "d@e.f" then some "boom" else none) = some pr.2) ∧
      (emailPOST ((["a@b.c", "bad", "d@e.f"] : List String).map JVal.str) "hello" true
        (fun e => if e = "d@e.f" then some "boom" else none)).attempted =
        validFiltered ((["a@b.c", "bad", "d@e.f"] : List String).map jsTrim) ∧
      (emailPOST ((["a@b.c", "bad", "d@e.f"] : List String).map JVal.str) "hello" true
        (fun e => if e = "d@e.f" then some "boom" else none)).status = 200) :=
  ⟨⟨by decide, by decide, by decide, by decide⟩,
    email_partial_failure_scenario ["a@b.c", "bad", "d@e.f"] "hello"
      (fun e => if e = "d@e.f" then some "boom" else none)
      (by decide) (by decide) (by decide) (by decide)⟩

/-! ## Claim theorems: validation and cache -/

/-- C3: a transcript whose trimmed length is at most 10 or greater than
50000 is rejected with HTTP 400 before the upstream completion call. -/
theorem summarize_bad_transcript_rejected (cache : Cache) (now : Nat)
    (up : String → String) (apiKey : Bool) (transcript : String)
    (instruction : Option String)
    (h : (jsTrim transcript).length ≤ 10 ∨ (jsTrim transcript).length > 50000) :
    (summarizePOST cache now up apiKey transcript instruction).status = 400 ∧
    (summarizePOST cache now up apiKey transcript instruction).upstreamCalled = false := by
  unfold summarizePOST
  by_cases h0 : transcript = ""
  · rw [if_pos h0]
    exact ⟨rfl, rfl⟩
  · rw [if_neg h0]
    cases hvt : validateTranscript transcript with
    | false =>
      rw [if_pos rfl]
      exact ⟨rfl, rfl⟩
    | true =>
      exfalso
      simp only [validateTranscript, Bool.and_eq_true, decide_eq_true_eq] at hvt
      omega

/-- C3 witness: the transcript `short` is rejected with 400 and no upstream
call. -/
theorem summarize_bad_transcript_rejected_witness :
    ((jsTrim "short").length ≤ 10 ∨ (jsTrim "short").length > 50000) ∧
    ((summarizePOST [] 0 (fun _ => "S") true "short" none).status = 400 ∧
      (summarizePOST [] 0 (fun _ => "S") true "short" none).upstreamCalled = false) :=
  ⟨Or.inl (by decide),
    summarize_bad_transcript_rejected [] 0 (fun _ => "S") true "short" none
      (Or.inl (by decide))⟩

set_option maxRecDepth 4000 in
/-- C7 counterexample: on the address `a@b.c` padded with 250 trailing
spaces, the trimmed form matches the regex and has length 5 ≤ 254, yet
`validateEmail` rejects it, because the 254-character bound is checked on the
untrimmed input (length 255). -/
theorem validateEmail_claim_counterexample :
    ¬ (validateEmail ("a@b.c" ++ String.mk (List.replicate 250 ' ')) = true ↔
      (EmailShape (jsTrim ("a@b.c" ++ String.mk (List.replicate 250 ' '))).toList ∧
        (jsTrim ("a@b.c" ++ String.mk (List.replicate 250 ' '))).length ≤ 254)) := by
  intro hiff
  have hrhs : EmailShape (jsTrim ("a@b.c" ++ String.mk (List.replicate 250 ' '))).toList ∧
      (jsTrim ("a@b.c" ++ String.mk (List.replicate 250 ' '))).length ≤ 254 :=
    ⟨(emailRegexTest_iff _).mp (by decide), by decide⟩
  exact absurd (hiff.mpr hrhs) (by decide)

/-- C7 (amended): `validateEmail` accepts exactly the inputs whose trimmed
form matches `^[^\s@]+@[^\s@]+\.[^\s@]+$` and whose original, untrimmed
form is at most 254 characters long. -/
theorem validateEmail_iff (email : String) :
    validateEmail email = true ↔
      (EmailShape (jsTrim email).toList ∧ email.length ≤ 254) := by
  unfold validateEmail
  rw [Bool.and_eq_true, emailRegexTest_iff, decide_eq_true_eq]

/-- C8: when a store leaves the cache with more than 100 entries, the sweep
keeps exactly the entries whose age is within `CACHE_DURATION` (with their
stored summaries unchanged) and deletes exactly those whose age exceeds
it. -/
theorem cache_sweep_removes_exactly_expired (c : Cache) (k s : String) (now : Nat)
    (h : 100 < (cacheSet c k { summary := s, timestamp := now }).length) :
    cacheStoreAndSweep c k s now =
      (cacheSet c k { summary := s, timestamp := now }).filter
        (fun kv => now - kv.2.timestamp ≤ CACHE_DURATION) ∧
    (∀ kv, kv ∈ cacheStoreAndSweep c k s now ↔
      (kv ∈ cacheSet c k { summary := s, timestamp := now } ∧
        now - kv.2.timestamp ≤ CACHE_DURATION)) := by
  have heq : cacheStoreAndSweep c k s now =
      sweepCache now (cacheSet c k { summary := s, timestamp := now }) := by
    simp only [cacheStoreAndSweep]
    rw [if_pos h]
  have hpred : (fun kv : String × CacheEntry =>
        (decide (¬ (now - kv.2.timestamp > CACHE_DURATION)))) =
      (fun kv : String × CacheEntry => (decide (now - kv.2.timestamp ≤ CACHE_DURATION))) := by
    funext kv
    exact decide_eq_decide.mpr (by omega)
  constructor
  · rw [heq]
    simp only [sweepCache]
    rw [hpred]
  · intro kv
    rw [heq]
    simp only [sweepCache, List.mem_filter, decide_eq_true_eq, Nat.not_lt]

theorem summarizeMiss_upstream (c : Cache) (n : Nat) (up : String → String)
    (st si : String) : (summarizeMiss c n up st si).upstreamCalled = true := by
  simp only [summarizeMiss]
  split
  · rfl
  · rfl

/-- C1: when a summarize call completed successfully through the upstream
model, an identical call within `CACHE_DURATION` of it answers the stored
summary with `cached = true` and no second upstream call, while an identical
call at or after the TTL goes to the upstream again. -/
theorem summarize_cache_idempotent (cache : Cache) (now1 now2 : Nat)
    (up : String → String) (transcript : String) (instruction : Option String)
    (h200 : (summarizePOST cache now1 up true transcript instruction).status = 200)
    (hup : (summarizePOST cache now1 up true transcript instruction).upstreamCalled = true) :
    (now2 < now1 + CACHE_DURATION →
      (summarizePOST (summarizePOST cache now1 up true transcript instruction).cache
          now2 up true transcript instruction).summary =
        (summarizePOST cache now1 up true transcript instruction).summary ∧
      (summarizePOST (summarizePOST cache now1 up true transcript instruction).cache
          now2 up true transcript instruction).cached = true ∧
      (summarizePOST (summarizePOST cache now1 up true transcript instruction).cache
          now2 up true transcript instruction).upstreamCalled = false) ∧
    (now1 + CACHE_DURATION ≤ now2 →
      (summarizePOST (summarizePOST cache now1 up true transcript instruction).cache
          now2 up true transcript instruction).upstreamCalled = true) := by
  by_cases h0 : transcript = ""
  · exfalso
    simp only [summarizePOST, if_pos h0] at hup
    exact Bool.false_ne_true hup
  by_cases hvt : validateTranscript transcript = false
  · exfalso
    simp only [summarizePOST, if_neg h0, if_pos hvt] at hup
    exact Bool.false_ne_true hup
  by_cases hir : instrRejected instruction = true
  · exfalso
    simp only [summarizePOST, if_neg h0, if_neg hvt, if_pos hir] at hup
    exact Bool.false_ne_true hup
  have hak : ¬ ((true : Bool) = false) := by simp
  have hr1 : summarizePOST cache now1 up true transcript instruction =
      summarizeMiss cache now1 up (sanitizeInput transcript) (sanitizedInstr instruction) := by
    simp only [summarizePOST, if_neg h0, if_neg hvt, if_neg hir, if_neg hak]
    cases hcg : cacheGet cache
        (sanitizeInput transcript ++ ":" ++ sanitizedInstr instruction) with
    | none => rfl
    | some e =>
      by_cases hfresh : now1 - e.timestamp < CACHE_DURATION
      · exfalso
        simp only [summarizePOST, if_neg h0, if_neg hvt, if_neg hir, if_neg hak,
          hcg, if_pos hfresh] at hup
        exact Bool.false_ne_true hup
      · simp [hfresh]
  by_cases hemp : up (promptFor (sanitizeInput transcript) (sanitizedInstr instruction)) = ""
  · exfalso
    rw [hr1] at h200
    simp only [summarizeMiss, if_pos hemp] at h200
    exact absurd h200 (by decide)
  have hr1' : summarizePOST cache now1 up true transcript instruction =
      { status := 200,
        summary := some (up (promptFor (sanitizeInput transcript) (sanitizedInstr instruction))),
        cached := false, upstreamCalled := true,
        cache := cacheStoreAndSweep cache
          (sanitizeInput transcript ++ ":" ++ sanitizedInstr instruction)
          (up (promptFor (sanitizeInput transcript) (sanitizedInstr instruction))) now1 } := by
    rw [hr1]
    simp only [summarizeMiss, if_neg hemp]
  have hget : cacheGet (summarizePOST cache now1 up true transcript instruction).cache
      (sanitizeInput transcript ++ ":" ++ sanitizedInstr instruction) =
      some { summary := up (promptFor (sanitizeInput transcript) (sanitizedInstr instruction)),
             timestamp := now1 } := by
    rw [hr1']
    exact cacheGet_storeAndSweep _ _ _ _
  have hD : CACHE_DURATION = 300000 := rfl
  constructor
  · intro hlt
    have hfresh2 : now2 - now1 < CACHE_DURATION := by omega
    have h2 : summarizePOST (cacheStoreAndSweep cache
        (sanitizeInput transcript ++ ":" ++ sanitizedInstr instruction)
        (up (promptFor (sanitizeInput transcript) (sanitizedInstr instruction))) now1)
        now2 up true transcript instruction =
        { status := 200,
          summary := some (up (promptFor (sanitizeInput transcript) (sanitizedInstr instruction))),
          cached := true, upstreamCalled := false,
          cache := cacheStoreAndSweep cache
            (sanitizeInput transcript ++ ":" ++ sanitizedInstr instruction)
            (up (promptFor (sanitizeInput transcript) (sanitizedInstr instruction))) now1 } := by
      simp only [summarizePOST, if_neg h0, if_neg hvt, if_neg hir, if_neg hak,
        cacheGet_storeAndSweep, if_pos hfresh2]
    rw [hr1']
    show (summarizePOST (cacheStoreAndSweep cache
        (sanitizeInput transcript ++ ":" ++ sanitizedInstr instruction)
        (up (promptFor (sanitizeInput transcript) (sanitizedInstr instruction))) now1)
        now2 up true transcript instruction).summary =
      some (up (promptFor (sanitizeInput transcript) (sanitizedInstr instruction))) ∧ _ ∧ _
    rw [h2]
    exact ⟨rfl, rfl, rfl⟩
  · intro hge
    have hstale : ¬ (now2 - now1 < CACHE_DURATION) := by omega
    have h2 : summarizePOST (cacheStoreAndSweep cache
        (sanitizeInput transcript ++ ":" ++ sanitizedInstr instruction)
        (up (promptFor (sanitizeInput transcript) (sanitizedInstr instruction))) now1)
        now2 up true transcript instruction =
        summarizeMiss (cacheStoreAndSweep cache
          (sanitizeInput transcript ++ ":" ++ sanitizedInstr instruction)
          (up (promptFor (sanitizeInput transcript) (sanitizedInstr instruction))) now1)
          now2 up (sanitizeInput transcript) (sanitizedInstr instruction) := by
      simp only [summarizePOST, if_neg h0, if_neg hvt, if_neg hir, if_neg hak,
        cacheGet_storeAndSweep, if_neg hstale]
    rw [hr1']
    show (summarizePOST (cacheStoreAndSweep cache
        (sanitizeInput transcript ++ ":" ++ sanitizedInstr instruction)
        (up (promptFor (sanitizeInput transcript) (sanitizedInstr instruction))) now1)
        now2 up true transcript instruction).upstreamCalled = true
    rw [h2]
    exact summarizeMiss_upstream _ _ _ _ _

/-- C2: for each configured policy, a per-window count along any consume
trace never exceeds the budget; exactly the budget of in-window consumes from
a fresh client all succeed while the next in-window consume is denied with a
positive reset delay; and a blocked client is denied regardless of its count
until the block elapses, after which it is admitted again. -/
theorem rate_limiter_policy_sound (p : RLPolicy)
    (hp : p = rateLimiters.summarize ∨ p = rateLimiters.email ∨ p = rateLimiters.general) :
    (∀ (ts : List Nat) (st : RLClient), rlFinal p none ts = some st →
      st.count ≤ p.points) ∧
    (∀ (t0 : Nat) (ts : List Nat) (tN : Nat), ts.length + 1 = p.points →
      (∀ t ∈ ts, t < t0 + p.durationMs) → tN < t0 + p.durationMs →
      ((rlReplies p none (t0 :: ts)).all (fun r => r.allowed) = true ∧
       (rlConsume p (rlFinal p none (t0 :: ts)) tN).1.allowed = false ∧
       0 < (rlConsume p (rlFinal p none (t0 :: ts)) tN).1.resetMillis)) ∧
    (∀ (st : RLClient) (b now : Nat), st.blockedUntil = some b →
      ((now < b → (rlConsume p (some st) now).1.allowed = false) ∧
       (b ≤ now → (rlConsume p (some st) now).1.allowed = true))) := by
  have hpts : 1 ≤ p.points := by
    rcases hp with h | h | h <;> subst h <;> decide
  have hblk : 0 < p.blockMs := by
    rcases hp with h | h | h <;> subst h <;> decide
  refine ⟨?_, ?_, ?_⟩
  · intro ts st hfin
    exact rlFinal_count_le p hpts ts none (fun st' h' => nomatch h') st hfin
  · intro t0 ts tN hlen hts htN
    have hrun := rlRun_window p t0 ts 1 (by omega)
      (fun t ht => hts t ht)
    have hfin : rlFinal p none (t0 :: ts) =
        some { count := 1 + ts.length, windowStart := t0, blockedUntil := none } := by
      show rlFinal p (some (rlConsume p none t0).2) ts = _
      exact hrun.2
    refine ⟨?_, ?_, ?_⟩
    · show ((rlConsume p none t0).1 ::
        rlReplies p (some (rlConsume p none t0).2) ts).all (fun r => r.allowed) = true
      simp only [List.all_cons, Bool.and_eq_true]
      exact ⟨rfl, hrun.1⟩
    · rw [hfin]
      simp only [rlConsume]
      rw [if_pos htN, if_pos (by omega : 1 + ts.length + 1 > p.points)]
    · rw [hfin]
      simp only [rlConsume]
      rw [if_pos htN, if_pos (by omega : 1 + ts.length + 1 > p.points)]
      exact hblk
  · rintro ⟨cnt, ws, bu⟩ b now hbu
    simp only at hbu
    subst hbu
    constructor
    · intro hlt
      simp only [rlConsume]
      rw [if_pos hlt]
    · intro hge
      simp only [rlConsume]
      rw [if_neg (not_lt.mpr hge)]

/-- C2 witness: the email policy (budget 5, window 60 s, block 300 s)
satisfies all three parts. -/
theorem rate_limiter_policy_sound_witness :
    (rateLimiters.email = rateLimiters.summarize ∨
      rateLimiters.email = rateLimiters.email ∨
      rateLimiters.email = rateLimiters.general) ∧
    ((∀ (ts : List Nat) (st : RLClient),
        rlFinal rateLimiters.email none ts = some st →
        st.count ≤ rateLimiters.email.points) ∧
    (∀ (t0 : Nat) (ts : List Nat) (tN : Nat),
        ts.length + 1 = rateLimiters.email.points →
        (∀ t ∈ ts, t < t0 + rateLimiters.email.durationMs) →
        tN < t0 + rateLimiters.email.durationMs →
      ((rlReplies rateLimiters.email none (t0 :: ts)).all (fun r => r.allowed) = true ∧
       (rlConsume rateLimiters.email
          (rlFinal rateLimiters.email none (t0 :: ts)) tN).1.allowed = false ∧
       0 < (rlConsume rateLimiters.email
          (rlFinal rateLimiters.email none (t0 :: ts)) tN).1.resetMillis)) ∧
    (∀ (st : RLClient) (b now : Nat), st.blockedUntil = some b →
      ((now < b → (rlConsume rateLimiters.email (some st) now).1.allowed = false) ∧
       (b ≤ now → (rlConsume rateLimiters.email (some st) now).1.allowed = true)))) :=
  ⟨Or.inr (Or.inl rfl), rate_limiter_policy_sound rateLimiters.email (Or.inr (Or.inl rfl))⟩

/-- C1 witness: a fresh successful call at time 0 followed by an identical
call at time 1 (within the TTL) and the TTL-elapsed implication, on a
concrete transcript. -/
theorem summarize_cache_idempotent_witness :
    ((summarizePOST [] 0 (fun _ => "S") true "abcdefghijkl" none).status = 200 ∧
      (summarizePOST [] 0 (fun _ => "S") true "abcdefghijkl" none).upstreamCalled = true) ∧
    ((1 < 0 + CACHE_DURATION →
      (summarizePOST (summarizePOST [] 0 (fun _ => "S") true "abcdefghijkl" none).cache
          1 (fun _ => "S") true "abcdefghijkl" none).summary =
        (summarizePOST [] 0 (fun _ => "S") true "abcdefghijkl" none).summary ∧
      (summarizePOST (summarizePOST [] 0 (fun _ => "S") true "abcdefghijkl" none).cache
          1 (fun _ => "S") true "abcdefghijkl" none).cached = true ∧
      (summarizePOST (summarizePOST [] 0 (fun _ => "S") true "abcdefghijkl" none).cache
          1 (fun _ => "S") true "abcdefghijkl" none).upstreamCalled = false) ∧
    (0 + CACHE_DURATION ≤ 1 →
      (summarizePOST (summarizePOST [] 0 (fun _ => "S") true "abcdefghijkl" none).cache
          1 (fun _ => "S") true "abcdefghijkl" none).upstreamCalled = true)) :=
  ⟨⟨by decide, by decide⟩,
    summarize_cache_idempotent [] 0 1 (fun _ => "S") "abcdefghijkl" none
      (by decide) (by decide)⟩

set_option maxRecDepth 8000 in
/-- C8 witness: storing a fresh entry into a 100-entry cache (distinct keys
`k`-repeated) triggers the sweep, which at age 0 keeps every entry. -/
theorem cache_sweep_removes_exactly_expired_witness :
    100 < (cacheSet ((List.range 100).map (fun i =>
        (String.mk (List.replicate i 'k'),
          ({ summary := "old", timestamp := 0 } : CacheEntry))))
      "newkey" { summary := "fresh", timestamp := 0 }).length ∧
    (cacheStoreAndSweep ((List.range 100).map (fun i =>
        (String.mk (List.replicate i 'k'),
          ({ summary := "old", timestamp := 0 } : CacheEntry)))) "newkey" "fresh" 0 =
      (cacheSet ((List.range 100).map (fun i =>
          (String.mk (List.replicate i 'k'),
            ({ summary := "old", timestamp := 0 } : CacheEntry))))
        "newkey" { summary := "fresh", timestamp := 0 }).filter
          (fun kv => 0 - kv.2.timestamp ≤ CACHE_DURATION) ∧
    (∀ kv, kv ∈ cacheStoreAndSweep ((List.range 100).map (fun i =>
        (String.mk (List.replicate i 'k'),
          ({ summary := "old", timestamp := 0 } : CacheEntry)))) "newkey" "fresh" 0 ↔
      (kv ∈ cacheSet ((List.range 100).map (fun i =>
          (String.mk (List.replicate i 'k'),
            ({ summary := "old", timestamp := 0 } : CacheEntry))))
        "newkey" { summary := "fresh", timestamp := 0 } ∧
        0 - kv.2.timestamp ≤ CACHE_DURATION))) :=
  ⟨by decide,
    cache_sweep_removes_exactly_expired _ "newkey" "fresh" 0 (by decide)⟩

end Lumina
